import Mathlib

/-!
Shallow embedding of the Lobbi-Docs/claude repository:

* `src/langgraph-demo/agent.py` — the demo conversational agent
  (`should_continue`, the module-scope compiled `graph`).
* `src/plugins/jira-orchestrator/scripts/publish-to-confluence.py` —
  the documentation publisher (`read_documentation`).
* The agent/plugin registry described in the specification
  (metadata record, persistent store, module loader, registry CRUD,
  discovery scanner).  The registry module itself is not among the
  source files, so those definitions are modelled from the spec and
  each carries a doc comment saying so.

Python strings are Lean `String`; Python lists are Lean `List`;
`pathlib` paths are lists of path segments; fallible operations return
`Option`/`Except`; `sys.exit` is a constructor of an explicit result
type.
-/

/-- Python `str.lower()` restricted to the characters Lean lowers,
as used by `should_continue` in src/langgraph-demo/agent.py line 29. -/
def pyLower (s : String) : String :=
  String.mk (s.data.map Char.toLower)

/-- Python's substring test `needle in haystack` on strings:
some position `i` of the haystack starts an occurrence of the needle. -/
def pyIn (needle haystack : String) : Bool :=
  (List.range (haystack.data.length + 1)).any fun i =>
    (haystack.data.drop i).take needle.data.length == needle.data

/-- A message object as `should_continue` observes it: it may or may
not carry a `content` attribute (Python `hasattr(m, "content")`).
`content = none` models a message without the attribute. -/
structure Message where
  content : Option String
deriving DecidableEq

/-- The `AgentState` TypedDict of src/langgraph-demo/agent.py:
a single `messages` list. -/
structure AgentState where
  messages : List Message
deriving DecidableEq

/-- The words scanned by `should_continue`
(src/langgraph-demo/agent.py line 30). -/
def farewellWords : List String :=
  ["goodbye", "bye", "farewell"]

/-- `should_continue` from src/langgraph-demo/agent.py lines 24-32.
`state["messages"][-1]` raises on an empty list, so the embedding
returns `none` there; otherwise it returns the Python string result. -/
def should_continue (state : AgentState) : Option String :=
  match state.messages.getLast? with
  | none => none
  | some last_message =>
    match last_message.content with
    | some c =>
      let content := pyLower c
      if farewellWords.any (fun word => pyIn word content) then
        some "end"
      else
        some "continue"
    | none => some "continue"

/-- The demo module of src/langgraph-demo/agent.py viewed through the
registry's validator: which of the two recognized entry points the
module exposes at module scope. -/
structure PyModule where
  hasGraph : Bool
  hasFactory : Bool
deriving DecidableEq

/-- src/langgraph-demo/agent.py line 55 defines `graph = builder.compile()`
at module scope — a pre-built compiled graph object — and defines no
factory function that builds one. -/
def langgraphDemoModule : PyModule :=
  { hasGraph := true, hasFactory := false }

/-- Outcome of running a Python function that may call `sys.exit`. -/
inductive PyResult (α : Type) where
  | ok : α → PyResult α
  | exit : Nat → PyResult α
deriving DecidableEq

/-- A filesystem as a finite association of paths (segment lists) to
file contents. -/
structure FS where
  files : List (List String × String)
deriving DecidableEq

/-- Read the file at a path, `none` when it does not exist. -/
def FS.read (fs : FS) (p : List String) : Option String :=
  (fs.files.find? (fun e => e.1 == p)).map (fun e => e.2)

/-- The documentation path computed by `read_documentation`
(src/plugins/jira-orchestrator/scripts/publish-to-confluence.py line 19):
`Path(__file__).parent.parent / "docs" / "CONFLUENCE-DOCUMENTATION.md"`,
with `pluginRoot` standing for `Path(__file__).parent.parent`. -/
def doc_path (pluginRoot : List String) : List String :=
  pluginRoot ++ ["docs", "CONFLUENCE-DOCUMENTATION.md"]

/-- `read_documentation` from
src/plugins/jira-orchestrator/scripts/publish-to-confluence.py
lines 17-25: if the documentation file is missing it prints an error
and calls `sys.exit(1)`; otherwise it returns the whole file contents. -/
def read_documentation (fs : FS) (pluginRoot : List String) : PyResult String :=
  match fs.read (doc_path pluginRoot) with
  | none => PyResult.exit 1
  | some contents => PyResult.ok contents

/-- Modelled from the spec: the JSON-like values the persistent store
serializes to (the store encoding of §6 is "an object-based
serialization"); the registry module holding the real encoder is not
among the source files. -/
inductive JValue where
  | null : JValue
  | bool : Bool → JValue
  | num : Nat → JValue
  | str : String → JValue
  | arr : List JValue → JValue
  | obj : List (String × JValue) → JValue

/-- Modelled from the spec: the health state machine of §4.4
(`unknown | healthy | unhealthy`); the registry module is not among
the source files. -/
inductive HealthStatus where
  | unknown : HealthStatus
  | healthy : HealthStatus
  | unhealthy : HealthStatus
deriving DecidableEq

/-- Modelled from the spec: the `AgentMetadata` record of §3; the
registry module defining it is not among the source files.  Paths are
segment lists; timestamps are optional sortable strings; the open
`defaultConfig` mapping is a key/value list. -/
structure AgentMetadata where
  id : String
  name : String
  description : String
  version : String
  agentType : String
  capabilities : List String
  tools : List String
  tags : List String
  dependencies : List String
  modulePath : Option (List String)
  configPath : Option (List String)
  createdAt : Option String
  updatedAt : Option String
  lastInvoked : Option String
  enabled : Bool
  healthStatus : HealthStatus
  invocationCount : Nat
  defaultConfig : List (String × JValue)

/-- Encoding of an optional string (null timestamps serialize as null). -/
def encOptStr : Option String → JValue
  | none => JValue.null
  | some s => JValue.str s

/-- Encoding of a string sequence field. -/
def encStrList (l : List String) : JValue :=
  JValue.arr (l.map JValue.str)

/-- Encoding of an optional path. -/
def encOptPath : Option (List String) → JValue
  | none => JValue.null
  | some p => encStrList p

/-- Encoding of a health status as its name. -/
def encHealth : HealthStatus → JValue
  | HealthStatus.unknown => JValue.str "unknown"
  | HealthStatus.healthy => JValue.str "healthy"
  | HealthStatus.unhealthy => JValue.str "unhealthy"

/-- Modelled from the spec: serialization of one `AgentMetadata` to the
store's object encoding (§6); the registry module is not among the
source files. -/
def encodeMetadata (a : AgentMetadata) : JValue :=
  JValue.obj
    [ ("id", JValue.str a.id)
    , ("name", JValue.str a.name)
    , ("description", JValue.str a.description)
    , ("version", JValue.str a.version)
    , ("agent_type", JValue.str a.agentType)
    , ("capabilities", encStrList a.capabilities)
    , ("tools", encStrList a.tools)
    , ("tags", encStrList a.tags)
    , ("dependencies", encStrList a.dependencies)
    , ("module_path", encOptPath a.modulePath)
    , ("config_path", encOptPath a.configPath)
    , ("created_at", encOptStr a.createdAt)
    , ("updated_at", encOptStr a.updatedAt)
    , ("last_invoked", encOptStr a.lastInvoked)
    , ("enabled", JValue.bool a.enabled)
    , ("health_status", encHealth a.healthStatus)
    , ("invocation_count", JValue.num a.invocationCount)
    , ("default_config", JValue.obj a.defaultConfig)
    ]

/-- Field lookup inside a decoded object. -/
def jField (fields : List (String × JValue)) (k : String) : Option JValue :=
  (fields.find? (fun e => e.1 == k)).map (fun e => e.2)

/-- Decode a string field. -/
def decStr : JValue → Option String
  | JValue.str s => some s
  | _ => none

/-- Decode a nullable string field. -/
def decOptStr : JValue → Option (Option String)
  | JValue.null => some none
  | JValue.str s => some (some s)
  | _ => none

/-- Decode each element of a sequence as a string, failing on the
first non-string. -/
def decStrEach : List JValue → Option (List String)
  | [] => some []
  | v :: vs =>
    match decStr v, decStrEach vs with
    | some s, some ss => some (s :: ss)
    | _, _ => none

/-- Decode a string sequence field. -/
def decStrList : JValue → Option (List String)
  | JValue.arr xs => decStrEach xs
  | _ => none

/-- Decode a nullable path field. -/
def decOptPath : JValue → Option (Option (List String))
  | JValue.null => some none
  | JValue.arr xs => (decStrEach xs).map some
  | _ => none

/-- Decode a boolean field. -/
def decBool : JValue → Option Bool
  | JValue.bool b => some b
  | _ => none

/-- Decode a numeric field. -/
def decNum : JValue → Option Nat
  | JValue.num n => some n
  | _ => none

/-- Decode a health status field. -/
def decHealth : JValue → Option HealthStatus
  | JValue.str "unknown" => some HealthStatus.unknown
  | JValue.str "healthy" => some HealthStatus.healthy
  | JValue.str "unhealthy" => some HealthStatus.unhealthy
  | _ => none

/-- Decode an open key/value mapping field. -/
def decConfig : JValue → Option (List (String × JValue))
  | JValue.obj l => some l
  | _ => none

/-- Modelled from the spec: deserialization of one `AgentMetadata` from
the store's object encoding; the registry module is not among the
source files.  Any missing or ill-typed field is a parse failure. -/
def decodeMetadata (v : JValue) : Option AgentMetadata :=
  match v with
  | JValue.obj fields =>
    match jField fields "id" >>= decStr,
          jField fields "name" >>= decStr,
          jField fields "description" >>= decStr,
          jField fields "version" >>= decStr,
          jField fields "agent_type" >>= decStr,
          jField fields "capabilities" >>= decStrList,
          jField fields "tools" >>= decStrList,
          jField fields "tags" >>= decStrList,
          jField fields "dependencies" >>= decStrList,
          jField fields "module_path" >>= decOptPath,
          jField fields "config_path" >>= decOptPath,
          jField fields "created_at" >>= decOptStr,
          jField fields "updated_at" >>= decOptStr,
          jField fields "last_invoked" >>= decOptStr,
          jField fields "enabled" >>= decBool,
          jField fields "health_status" >>= decHealth,
          jField fields "invocation_count" >>= decNum,
          jField fields "default_config" >>= decConfig with
    | some id, some name, some description, some version, some agentType,
      some capabilities, some tools, some tags, some dependencies,
      some modulePath, some configPath, some createdAt, some updatedAt,
      some lastInvoked, some enabled, some healthStatus,
      some invocationCount, some defaultConfig =>
      some (AgentMetadata.mk id name description version agentType
        capabilities tools tags dependencies modulePath configPath
        createdAt updatedAt lastInvoked enabled healthStatus
        invocationCount defaultConfig)
    | _, _, _, _, _, _, _, _, _, _, _, _, _, _, _, _, _, _ => none
  | _ => none

/-- Modelled from the spec: the full store encoding, a mapping of agent
id to encoded metadata (§6). -/
def encodeMap (m : List (String × AgentMetadata)) : JValue :=
  JValue.obj (m.map (fun p => (p.1, encodeMetadata p.2)))

/-- Decode each id/value entry of the store object, failing on the
first undecodable record. -/
def decodeEntries : List (String × JValue) → Option (List (String × AgentMetadata))
  | [] => some []
  | e :: es =>
    match decodeMetadata e.2, decodeEntries es with
    | some a, some rest => some ((e.1, a) :: rest)
    | _, _ => none

/-- Modelled from the spec: deserialization of the full store mapping. -/
def decodeMap (v : JValue) : Option (List (String × AgentMetadata)) :=
  match v with
  | JValue.obj l => decodeEntries l
  | _ => none

/-- The store file's raw content: either text that the JSON layer parses
to a value, or text it rejects.  The JSON text layer itself is the
language's standard library, external to the repository. -/
inductive StoreContent where
  | json : JValue → StoreContent
  | malformed : String → StoreContent

/-- Modelled from the spec: `saveAll(map)` of §4.1 serializes the entire
map and overwrites the store file; the returned value is the new file
content. -/
def saveAll (m : List (String × AgentMetadata)) : StoreContent :=
  StoreContent.json (encodeMap m)

/-- Modelled from the spec: parsing the store file content into the
in-memory map; malformed text or an unexpected shape is a parse
failure. -/
def parseStore : StoreContent → Option (List (String × AgentMetadata))
  | StoreContent.json v => decodeMap v
  | StoreContent.malformed _ => none

/-- Modelled from the spec: `loadAll()` of §4.1 parses the store file;
on parse failure it logs the failure (second component `true`) and
resets to an empty in-memory map instead of propagating a fatal
error. -/
def loadAll (disk : Option StoreContent) : List (String × AgentMetadata) × Bool :=
  match disk with
  | none => ([], false)
  | some c =>
    match parseStore c with
    | some m => (m, false)
    | none => ([], true)

/-- Modelled from the spec: `open(rootPath)` of §4.1: loads existing
content if present; if the file is absent, initializes an empty store
and writes it immediately.  Returns the in-memory map, the logged flag
and the resulting file content. -/
def openStore (disk : Option StoreContent) :
    List (String × AgentMetadata) × Bool × StoreContent :=
  match disk with
  | none => ([], false, saveAll [])
  | some c =>
    match parseStore c with
    | some m => (m, false, c)
    | none => ([], true, c)

/-- Modelled from the spec: the error kinds of §7; the registry module
is not among the source files. -/
inductive RegError where
  | alreadyExists : RegError
  | notFound : RegError
  | fileMissing : RegError
  | parseError : RegError
  | loadError : RegError
  | loadFailure : RegError
  | validationFailure : RegError
deriving DecidableEq

/-- A discovered sibling configuration file: either one the config
layer parses (with its recognized `name` and `description` fields) or
malformed text. -/
inductive ConfigFile where
  | parsed : String → String → ConfigFile
  | malformed : ConfigFile
deriving DecidableEq

/-- The environment the registry runs against: the set of existing
files, the configuration file contents, the outcome of importing a
module from a path (`none` models an exception raised during import),
and the current clock reading. -/
structure World where
  files : List (List String)
  configs : List (List String × ConfigFile)
  loadModule : List String → Option PyModule
  now : String

/-- File existence in a world. -/
def World.fileExists (w : World) (p : List String) : Bool :=
  w.files.contains p

/-- Contents of the configuration file at a path, if it exists. -/
def World.configAt (w : World) (p : List String) : Option ConfigFile :=
  (w.configs.find? (fun e => e.1 == p)).map (fun e => e.2)

/-- Modelled from the spec: the registry's mutable state — the
in-memory id → metadata map, the store file content, and the
process-local loader cache of §3; the registry module is not among the
source files. -/
structure RegState where
  agents : List (String × AgentMetadata)
  disk : Option StoreContent
  cache : List (String × PyModule)

/-- Association-list lookup by string key, as the in-memory map's
access path. -/
def alookup {α : Type} (l : List (String × α)) (k : String) : Option α :=
  (l.find? (fun e => e.1 == k)).map (fun e => e.2)

/-- Replace any prior cache entry for an id with a fresh handle. -/
def cacheReplace (cache : List (String × PyModule)) (id : String)
    (m : PyModule) : List (String × PyModule) :=
  cache.filter (fun e => !(e.1 == id)) ++ [(id, m)]

/-- Modelled from the spec: the loader/validator may update only
`healthStatus` and `updatedAt` of the addressed record (§3 lifecycle). -/
def setHealth (agents : List (String × AgentMetadata)) (id : String)
    (h : HealthStatus) (now : String) : List (String × AgentMetadata) :=
  agents.map (fun e =>
    if e.1 = id then
      (e.1, { e.2 with healthStatus := h, updatedAt := some now })
    else e)

/-- Modelled from the spec: the optional fields `register` accepts
beyond id, name, description and module path (§4.3 extraFields). -/
structure ExtraFields where
  version : String := "1.0.0"
  agentType : String := "general"
  capabilities : List String := []
  tools : List String := []
  tags : List String := []
  dependencies : List String := []
  configPath : Option (List String) := none
  defaultConfig : List (String × JValue) := []

/-- Modelled from the spec: `register` of §4.3 — fails with
`AlreadyExists` on a taken id, fails with a file error when the module
path does not exist, and otherwise creates the record with both
timestamps set to the current time, inserts it, persists the whole map
and returns the record; the registry module is not among the source
files. -/
def register (w : World) (s : RegState) (id name description : String)
    (modulePath : List String) (extra : ExtraFields) :
    Except RegError AgentMetadata × RegState :=
  if (alookup s.agents id).isSome then
    (Except.error RegError.alreadyExists, s)
  else if ¬ w.fileExists modulePath then
    (Except.error RegError.fileMissing, s)
  else
    let meta : AgentMetadata :=
      { id := id, name := name, description := description,
        version := extra.version, agentType := extra.agentType,
        capabilities := extra.capabilities, tools := extra.tools,
        tags := extra.tags, dependencies := extra.dependencies,
        modulePath := some modulePath, configPath := extra.configPath,
        createdAt := some w.now, updatedAt := some w.now,
        lastInvoked := none, enabled := true,
        healthStatus := HealthStatus.unknown, invocationCount := 0,
        defaultConfig := extra.defaultConfig }
    let agents := s.agents ++ [(id, meta)]
    (Except.ok meta,
     { agents := agents, disk := some (saveAll agents), cache := s.cache })

/-- Modelled from the spec: `load(id, forceReload)` of §4.2 — a cache
hit without force returns the cached handle unchanged; an unknown id
or a missing module reference is `NotFound`; a missing module file is
`LoadError` (health becomes `unhealthy`); an exception during import
is caught as a `LoadFailure` result (health becomes `unhealthy`); a
fresh load replaces the cached handle and health becomes `healthy`;
every actual load attempt persists the store; the registry module is
not among the source files. -/
def load (w : World) (s : RegState) (id : String) (forceReload : Bool) :
    Except RegError PyModule × RegState :=
  match alookup s.cache id, forceReload with
  | some h, false => (Except.ok h, s)
  | _, _ =>
    match alookup s.agents id with
    | none => (Except.error RegError.notFound, s)
    | some meta =>
      match meta.modulePath with
      | none => (Except.error RegError.notFound, s)
      | some p =>
        if w.fileExists p then
          match w.loadModule p with
          | some m =>
            let agents := setHealth s.agents id HealthStatus.healthy w.now
            (Except.ok m,
             { agents := agents, disk := some (saveAll agents),
               cache := cacheReplace s.cache id m })
          | none =>
            let agents := setHealth s.agents id HealthStatus.unhealthy w.now
            (Except.error RegError.loadFailure,
             { agents := agents, disk := some (saveAll agents),
               cache := s.cache })
        else
          let agents := setHealth s.agents id HealthStatus.unhealthy w.now
          (Except.error RegError.loadError,
           { agents := agents, disk := some (saveAll agents),
             cache := s.cache })

/-- Modelled from the spec: `validate(id)` of §4.2 — performs a `load`
and requires the loaded handle to expose at least one of the two
recognized entry points (a pre-built graph object or a factory
function); missing both marks `unhealthy` and fails, either present
marks `healthy` and succeeds; the registry module is not among the
source files. -/
def validate (w : World) (s : RegState) (id : String) : Bool × RegState :=
  match load w s id false with
  | (Except.error _, s1) => (false, s1)
  | (Except.ok m, s1) =>
    if m.hasGraph || m.hasFactory then
      let agents := setHealth s1.agents id HealthStatus.healthy w.now
      (true,
       { agents := agents, disk := some (saveAll agents),
         cache := s1.cache })
    else
      let agents := setHealth s1.agents id HealthStatus.unhealthy w.now
      (false,
       { agents := agents, disk := some (saveAll agents),
         cache := s1.cache })

/-- Modelled from the spec: the conjunctive filter of `list` (§4.3):
enabled when `enabledOnly`, the requested type when one is given, and
all requested tags; the registry module is not among the source
files. -/
def listFilter (enabledOnly : Bool) (agentType : Option String)
    (tags : Option (List String)) (a : AgentMetadata) : Bool :=
  (!enabledOnly || a.enabled)
    && (match agentType with
        | none => true
        | some t => a.agentType == t)
    && (match tags with
        | none => true
        | some ts => ts.all (fun t => a.tags.contains t))

/-- Modelled from the spec: `list(enabledOnly, agentType, tags)` of
§4.3 returns the filtered subset of the in-memory set. -/
def listAgents (s : RegState) (enabledOnly : Bool)
    (agentType : Option String) (tags : Option (List String)) :
    List AgentMetadata :=
  (s.agents.map (fun e => e.2)).filter (listFilter enabledOnly agentType tags)

/-- Modelled from the spec: the fixed loadable-unit marker file name
the discovery scanner looks for (§4.5). -/
def markerName : String := "agent.py"

/-- Modelled from the spec: the sibling configuration file name the
discovery scanner enriches registrations from (§4.5). -/
def configName : String := "config.json"

/-- The immediate parent directory's name of a file path. -/
def parentDirName (p : List String) : String :=
  (p.dropLast.getLast?).getD ""

/-- Modelled from the spec: the recursive find of §4.5 — every file
matching the marker name anywhere under the root. -/
def discoverCandidates (w : World) (root : List String) : List (List String) :=
  w.files.filter (fun p =>
    (p.getLast? == some markerName) && root.isPrefixOf p)

/-- Modelled from the spec: a humanized form of a directory name used
as the minimal derived display name (§4.5). -/
def humanize (s : String) : String :=
  s.map (fun c => if c = '_' ∨ c = '-' then ' ' else c)

/-- Modelled from the spec: discovery's handling of one found marker
file (§4.5): skip silently when the derived id is already registered;
otherwise enrich from a sibling configuration file when one parses,
fail (logged, skipped) when it is malformed, or register with the
derived name and a generic description; a successful registration
increments the discovered count. -/
def discoverStep (w : World) (acc : Nat × RegState) (p : List String) :
    Nat × RegState :=
  let n := acc.1
  let s := acc.2
  let id := parentDirName p
  if (alookup s.agents id).isSome then
    (n, s)
  else
    match w.configAt (p.dropLast ++ [configName]) with
    | some ConfigFile.malformed => (n, s)
    | some (ConfigFile.parsed nm ds) =>
      match register w s id nm ds p {} with
      | (Except.ok _, s1) => (n + 1, s1)
      | (Except.error _, s1) => (n, s1)
    | none =>
      match register w s id (humanize id) "Auto-discovered agent" p {} with
      | (Except.ok _, s1) => (n + 1, s1)
      | (Except.error _, s1) => (n, s1)

/-- Modelled from the spec: `discover` of §4.5 — walk the tree for
marker files and process each candidate in order, returning the
discovered count and the final state; the registry module is not among
the source files. -/
def discover (w : World) (root : List String) (s : RegState) :
    Nat × RegState :=
  (discoverCandidates w root).foldl (discoverStep w) (0, s)

/-- An agent enabled, typed worker and tagged only "nlp", used to
exhibit the conjunctive tag filter. -/
def nlpOnlyAgent : AgentMetadata :=
  { id := "a1", name := "NLP worker", description := "tagged only nlp",
    version := "1.0.0", agentType := "worker", capabilities := [],
    tools := [], tags := ["nlp"], dependencies := [], modulePath := none,
    configPath := none, createdAt := none, updatedAt := none,
    lastInvoked := none, enabled := true,
    healthStatus := HealthStatus.unknown, invocationCount := 0,
    defaultConfig := [] }

/-- A module path for the demo agent of src/langgraph-demo/agent.py as
discovered under an agents directory. -/
def demoModulePath : List String := ["agents", "langgraph-demo", "agent.py"]

def demoAgent : AgentMetadata :=
  { id := "langgraph-demo", name := "Langgraph Demo",
    description := "Simple LangGraph agent demo", version := "1.0.0",
    agentType := "general", capabilities := [], tools := [],
    tags := [], dependencies := [], modulePath := some demoModulePath,
    configPath := none, createdAt := some "2026-01-01T00:00:00Z",
    updatedAt := some "2026-01-01T00:00:00Z", lastInvoked := none,
    enabled := true, healthStatus := HealthStatus.unknown,
    invocationCount := 0, defaultConfig := [] }

def demoWorld : World :=
  { files := [demoModulePath], configs := [],
    loadModule := fun p => if p == demoModulePath then some langgraphDemoModule else none,
    now := "2026-01-02T00:00:00Z" }

def demoState : RegState :=
  { agents := [("langgraph-demo", demoAgent)], disk := none, cache := [] }

/-- A registry state whose loader cache already holds a handle. -/
def cachedState : RegState :=
  { agents := [], disk := none,
    cache := [("cached-agent", langgraphDemoModule)] }

/-- A discovery candidate is settled in a state when its derived id is
registered or its sibling configuration file is malformed (so its
registration deterministically fails and is skipped). -/
def candidateDone (w : World) (s : RegState) (p : List String) : Prop :=
  (alookup s.agents (parentDirName p)).isSome = true
    ∨ w.configAt (p.dropLast ++ [configName]) = some ConfigFile.malformed

lemma decStrEach_map (l : List String) :
    decStrEach (l.map JValue.str) = some l := by
  induction l with
  | nil => rfl
  | cons x xs ih => simp [decStrEach, decStr, ih]

lemma decStrList_enc (l : List String) :
    decStrList (encStrList l) = some l := by
  simp [decStrList, encStrList, decStrEach_map]

lemma decOptPath_enc (o : Option (List String)) :
    decOptPath (encOptPath o) = some o := by
  cases o with
  | none => rfl
  | some p => simp [decOptPath, encOptPath, encStrList, decStrEach_map]

lemma decOptStr_enc (o : Option String) :
    decOptStr (encOptStr o) = some o := by
  cases o <;> rfl

lemma decHealth_enc (h : HealthStatus) :
    decHealth (encHealth h) = some h := by
  cases h <;> rfl

lemma decodeMetadata_encodeMetadata (a : AgentMetadata) :
    decodeMetadata (encodeMetadata a) = some a := by
  cases a with
  | mk id name description version agentType capabilities tools tags
      dependencies modulePath configPath createdAt updatedAt lastInvoked
      enabled healthStatus invocationCount defaultConfig =>
    simp [decodeMetadata, encodeMetadata, jField, List.find?, decStr,
      decBool, decNum, decConfig, decStrList_enc, decOptPath_enc,
      decOptStr_enc, decHealth_enc]

lemma decodeEntries_enc (m : List (String × AgentMetadata)) :
    decodeEntries (m.map (fun p => (p.1, encodeMetadata p.2))) = some m := by
  induction m with
  | nil => rfl
  | cons e es ih =>
    simp [decodeEntries, decodeMetadata_encodeMetadata, ih]

lemma decodeMap_encodeMap (m : List (String × AgentMetadata)) :
    decodeMap (encodeMap m) = some m := by
  simp [decodeMap, encodeMap, decodeEntries_enc]

lemma listFilter_eq_true (enabledOnly : Bool) (agentType : Option String)
    (tags : Option (List String)) (a : AgentMetadata) :
    listFilter enabledOnly agentType tags a = true ↔
      ((enabledOnly = true → a.enabled = true)
        ∧ (∀ t, agentType = some t → a.agentType = t)
        ∧ (∀ ts, tags = some ts → ∀ tag ∈ ts, tag ∈ a.tags)) := by
  unfold listFilter
  rw [Bool.and_eq_true, Bool.and_eq_true, Bool.or_eq_true_iff]
  constructor
  · rintro ⟨⟨h1, h2⟩, h3⟩
    refine ⟨?_, ?_, ?_⟩
    · intro he
      rcases h1 with hno | hen
      · rw [he] at hno
        exact absurd hno (by decide)
      · exact hen
    · intro t ht
      rw [ht] at h2
      exact beq_iff_eq.mp h2
    · intro ts hts tag htag
      rw [hts] at h3
      rw [List.all_eq_true] at h3
      exact List.elem_iff.mp (h3 tag htag)
  · rintro ⟨h1, h2, h3⟩
    refine ⟨⟨?_, ?_⟩, ?_⟩
    · cases heo : enabledOnly with
      | false => left; rfl
      | true => right; exact h1 heo
    · cases hty : agentType with
      | none => rfl
      | some t => exact beq_iff_eq.mpr (h2 t hty)
    · cases hts : tags with
      | none => rfl
      | some ts =>
        rw [List.all_eq_true]
        intro tag htag
        exact List.elem_iff.mpr (h3 ts hts tag htag)

lemma alookup_cons {α : Type} (e : String × α) (es : List (String × α))
    (k : String) :
    alookup (e :: es) k = if e.1 == k then some e.2 else alookup es k := by
  unfold alookup
  cases h : e.1 == k with
  | true => simp [List.find?, h]
  | false => simp [List.find?, h]

lemma alookup_append_some {α : Type} (l l2 : List (String × α)) (k : String)
    (a : α) (h : alookup l k = some a) : alookup (l ++ l2) k = some a := by
  induction l with
  | nil => simp [alookup] at h
  | cons e es ih =>
    rw [alookup_cons] at h
    rw [List.cons_append, alookup_cons]
    cases hbe : e.1 == k with
    | true => rw [hbe] at h; simpa using h
    | false => rw [hbe] at h; simp at h ⊢; exact ih h

lemma alookup_append_new {α : Type} (l : List (String × α)) (k : String)
    (a : α) (h : alookup l k = none) : alookup (l ++ [(k, a)]) k = some a := by
  induction l with
  | nil => simp [alookup, List.find?]
  | cons e es ih =>
    rw [alookup_cons] at h
    rw [List.cons_append, alookup_cons]
    cases hbe : e.1 == k with
    | true => rw [hbe] at h; simp at h
    | false => rw [hbe] at h; simp at h ⊢; exact ih h

lemma alookup_setHealth_self (agents : List (String × AgentMetadata))
    (id : String) (h : HealthStatus) (now : String) (a : AgentMetadata)
    (ha : alookup agents id = some a) :
    alookup (setHealth agents id h now) id =
      some { a with healthStatus := h, updatedAt := some now } := by
  induction agents with
  | nil => simp [alookup] at ha
  | cons e es ih =>
    rw [alookup_cons] at ha
    cases hbe : e.1 == id with
    | true =>
      rw [hbe] at ha
      simp at ha
      have heq : e.1 = id := beq_iff_eq.mp hbe
      unfold setHealth
      rw [List.map_cons]
      rw [if_pos heq]
      rw [alookup_cons]
      simp [hbe, ha]
    | false =>
      rw [hbe] at ha
      simp at ha
      have hne : ¬ (e.1 = id) := by
        intro hx
        rw [hx] at hbe
        simp at hbe
      unfold setHealth
      rw [List.map_cons, if_neg hne, alookup_cons, hbe]
      simp only [if_false]
      exact ih ha

lemma alookup_filter_ne {α : Type} (l : List (String × α)) (k : String) :
    alookup (l.filter (fun e => !(e.1 == k))) k = none := by
  induction l with
  | nil => rfl
  | cons e es ih =>
    rw [List.filter_cons]
    cases hbe : e.1 == k with
    | true => simp [hbe, ih]
    | false =>
      simp only [hbe, Bool.not_false, if_true]
      rw [alookup_cons, hbe]
      simp [ih]

lemma alookup_cacheReplace_self (cache : List (String × PyModule))
    (id : String) (m : PyModule) :
    alookup (cacheReplace cache id m) id = some m := by
  unfold cacheReplace
  exact alookup_append_new _ id m (alookup_filter_ne cache id)

lemma load_cached (w : World) (s : RegState) (id : String) (h : PyModule)
    (hc : alookup s.cache id = some h) :
    load w s id false = (Except.ok h, s) := by
  unfold load
  rw [hc]

lemma load_unknown_id (w : World) (s : RegState) (id : String)
    (hc : alookup s.cache id = none) (hm : alookup s.agents id = none) :
    load w s id false = (Except.error RegError.notFound, s) := by
  unfold load
  rw [hc, hm]

lemma load_no_module_ref (w : World) (s : RegState) (id : String)
    (meta : AgentMetadata) (hc : alookup s.cache id = none)
    (hm : alookup s.agents id = some meta) (hp : meta.modulePath = none) :
    load w s id false = (Except.error RegError.notFound, s) := by
  simp [load, hc, hm, hp]

lemma load_file_missing (w : World) (s : RegState) (id : String)
    (meta : AgentMetadata) (p : List String)
    (hc : alookup s.cache id = none) (hm : alookup s.agents id = some meta)
    (hp : meta.modulePath = some p) (hf : w.fileExists p = false) :
    load w s id false =
      (Except.error RegError.loadError,
       { agents := setHealth s.agents id HealthStatus.unhealthy w.now,
         disk := some (saveAll (setHealth s.agents id HealthStatus.unhealthy w.now)),
         cache := s.cache }) := by
  simp [load, hc, hm, hp, hf]

lemma load_fresh_ok (w : World) (s : RegState) (id : String)
    (meta : AgentMetadata) (p : List String) (m : PyModule)
    (hc : alookup s.cache id = none) (hm : alookup s.agents id = some meta)
    (hp : meta.modulePath = some p) (hf : w.fileExists p = true)
    (hl : w.loadModule p = some m) :
    load w s id false =
      (Except.ok m,
       { agents := setHealth s.agents id HealthStatus.healthy w.now,
         disk := some (saveAll (setHealth s.agents id HealthStatus.healthy w.now)),
         cache := cacheReplace s.cache id m }) := by
  simp [load, hc, hm, hp, hf, hl]

lemma load_exception (w : World) (s : RegState) (id : String)
    (meta : AgentMetadata) (p : List String)
    (hc : alookup s.cache id = none) (hm : alookup s.agents id = some meta)
    (hp : meta.modulePath = some p) (hf : w.fileExists p = true)
    (hl : w.loadModule p = none) :
    load w s id false =
      (Except.error RegError.loadFailure,
       { agents := setHealth s.agents id HealthStatus.unhealthy w.now,
         disk := some (saveAll (setHealth s.agents id HealthStatus.unhealthy w.now)),
         cache := s.cache }) := by
  simp [load, hc, hm, hp, hf, hl]

lemma register_preserves_alookup (w : World) (s : RegState)
    (id nm ds : String) (mp : List String) (extra : ExtraFields)
    (i : String) (a : AgentMetadata) (h : alookup s.agents i = some a) :
    alookup ((register w s id nm ds mp extra).2).agents i = some a := by
  unfold register
  by_cases h1 : (alookup s.agents id).isSome = true
  · simp only [h1, if_true]
    exact h
  · simp only [h1, if_false]
    by_cases h2 : w.fileExists mp = true
    · simp only [h2, not_true, if_false]
      simp only [Bool.not_eq_true] at h1
      simp
      exact alookup_append_some _ _ i a h
    · simp only [Bool.not_eq_true] at h2
      simp [h2]
      exact h

lemma register_registers (w : World) (s : RegState) (id nm ds : String)
    (mp : List String) (extra : ExtraFields)
    (h1 : alookup s.agents id = none) (h2 : w.fileExists mp = true) :
    (alookup ((register w s id nm ds mp extra).2).agents id).isSome = true := by
  unfold register
  have h1s : (alookup s.agents id).isSome = false := by rw [h1]; rfl
  simp only [h1s, Bool.false_eq_true, if_false, h2, not_true, if_false]
  rw [alookup_append_new s.agents id _ h1]
  rfl

lemma discoverStep_preserves (w : World) (n : Nat) (s : RegState)
    (p : List String) (i : String) (a : AgentMetadata)
    (h : alookup s.agents i = some a) :
    alookup ((discoverStep w (n, s) p).2).agents i = some a := by
  unfold discoverStep
  by_cases h1 : (alookup s.agents (parentDirName p)).isSome = true
  · simp only [h1, if_true]
    exact h
  · simp only [h1, if_false]
    cases hcfg : w.configAt (p.dropLast ++ [configName]) with
    | none =>
      simp only []
      rcases hr : register w s (parentDirName p) (humanize (parentDirName p))
          "Auto-discovered agent" p {} with ⟨r, s1⟩
      have hpres := register_preserves_alookup w s (parentDirName p)
        (humanize (parentDirName p)) "Auto-discovered agent" p {} i a h
      rw [hr] at hpres
      cases r with
      | ok v => simpa using hpres
      | error e => simpa using hpres
    | some cf =>
      cases cf with
      | malformed => simp only []; exact h
      | parsed nm ds =>
        simp only []
        rcases hr : register w s (parentDirName p) nm ds p {} with ⟨r, s1⟩
        have hpres := register_preserves_alookup w s (parentDirName p)
          nm ds p {} i a h
        rw [hr] at hpres
        cases r with
        | ok v => simpa using hpres
        | error e => simpa using hpres

lemma discoverStep_establishes (w : World) (n : Nat) (s : RegState)
    (p : List String) (hp : w.fileExists p = true) :
    candidateDone w ((discoverStep w (n, s) p).2) p := by
  unfold discoverStep
  by_cases h1 : (alookup s.agents (parentDirName p)).isSome = true
  · simp only [h1, if_true]
    left
    exact h1
  · simp only [h1, if_false]
    have h1n : alookup s.agents (parentDirName p) = none := by
      cases hx : alookup s.agents (parentDirName p) with
      | none => rfl
      | some v => rw [hx] at h1; simp at h1
    cases hcfg : w.configAt (p.dropLast ++ [configName]) with
    | none =>
      simp only []
      rcases hr : register w s (parentDirName p) (humanize (parentDirName p))
          "Auto-discovered agent" p {} with ⟨r, s1⟩
      have hreg := register_registers w s (parentDirName p)
        (humanize (parentDirName p)) "Auto-discovered agent" p {} h1n hp
      rw [hr] at hreg
      cases r with
      | ok v => left; simpa using hreg
      | error e => left; simpa using hreg
    | some cf =>
      cases cf with
      | malformed =>
        simp only []
        right
        exact hcfg
      | parsed nm ds =>
        simp only []
        rcases hr : register w s (parentDirName p) nm ds p {} with ⟨r, s1⟩
        have hreg := register_registers w s (parentDirName p) nm ds p {} h1n hp
        rw [hr] at hreg
        cases r with
        | ok v => left; simpa using hreg
        | error e => left; simpa using hreg

lemma candidateDone_preserved (w : World) (n : Nat) (s : RegState)
    (p q : List String) (h : candidateDone w s p) :
    candidateDone w ((discoverStep w (n, s) q).2) p := by
  cases h with
  | inl hl =>
    left
    cases hx : alookup s.agents (parentDirName p) with
    | none => rw [hx] at hl; simp at hl
    | some a =>
      rw [discoverStep_preserves w n s q (parentDirName p) a hx]
      rfl
  | inr hr =>
    right
    exact hr

lemma discoverStep_id_of_done (w : World) (n : Nat) (s : RegState)
    (p : List String) (h : candidateDone w s p) :
    discoverStep w (n, s) p = (n, s) := by
  unfold discoverStep
  by_cases h1 : (alookup s.agents (parentDirName p)).isSome = true
  · simp only [h1, if_true]
  · simp only [h1, if_false]
    cases h with
    | inl hl => exact absurd hl h1
    | inr hr =>
      rw [hr]
      simp

lemma foldl_discoverStep_preserves_done (w : World) (cs : List (List String))
    (p : List String) :
    ∀ (n : Nat) (s : RegState), candidateDone w s p →
      candidateDone w ((cs.foldl (discoverStep w) (n, s)).2) p := by
  induction cs with
  | nil => intro n s h; exact h
  | cons c cs ih =>
    intro n s h
    rw [List.foldl_cons]
    rcases hstep : discoverStep w (n, s) c with ⟨n1, s1⟩
    have h1 := candidateDone_preserved w n s p c h
    rw [hstep] at h1
    exact ih n1 s1 h1

lemma foldl_discoverStep_establishes (w : World) (cs : List (List String)) :
    ∀ (n : Nat) (s : RegState), (∀ p ∈ cs, w.fileExists p = true) →
      ∀ p ∈ cs, candidateDone w ((cs.foldl (discoverStep w) (n, s)).2) p := by
  induction cs with
  | nil => intro n s _ p hp; exact absurd hp (List.not_mem_nil p)
  | cons c cs ih =>
    intro n s hall p hp
    rw [List.foldl_cons]
    rcases hstep : discoverStep w (n, s) c with ⟨n1, s1⟩
    rcases List.mem_cons.mp hp with hpc | hpcs
    · subst hpc
      have hest := discoverStep_establishes w n s p (hall p (List.mem_cons_self p cs))
      rw [hstep] at hest
      exact foldl_discoverStep_preserves_done w cs p n1 s1 hest
    · exact ih n1 s1 (fun q hq => hall q (List.mem_cons_of_mem c hq)) p hpcs

lemma foldl_discoverStep_id_of_all_done (w : World) (cs : List (List String)) :
    ∀ (n : Nat) (s : RegState), (∀ p ∈ cs, candidateDone w s p) →
      cs.foldl (discoverStep w) (n, s) = (n, s) := by
  induction cs with
  | nil => intro n s _; rfl
  | cons c cs ih =>
    intro n s hall
    rw [List.foldl_cons]
    rw [discoverStep_id_of_done w n s c (hall c (List.mem_cons_self c cs))]
    exact ih n s (fun q hq => hall q (List.mem_cons_of_mem c hq))

lemma should_continue_content (st : AgentState) (m : Message) (c : String)
    (h : st.messages.getLast? = some m) (hc : m.content = some c) :
    should_continue st =
      (if (pyIn "goodbye" (pyLower c) || (pyIn "bye" (pyLower c) ||
            pyIn "farewell" (pyLower c))) = true
       then some "end" else some "continue") := by
  have h1 : should_continue st =
      (match m.content with
       | some c =>
         if farewellWords.any (fun word => pyIn word (pyLower c)) then
           some "end"
         else some "continue"
       | none => some "continue") := by
    unfold should_continue
    rw [h]
  rw [hc] at h1
  have h2 : (match some c with
       | some c =>
         if farewellWords.any (fun word => pyIn word (pyLower c)) then
           some "end"
         else some "continue"
       | (none : Option String) => some "continue") =
      (if farewellWords.any (fun word => pyIn word (pyLower c)) then
         some "end"
       else some "continue") := rfl
  rw [h1, h2]
  have h3 : farewellWords.any (fun word => pyIn word (pyLower c)) =
      (pyIn "goodbye" (pyLower c) || (pyIn "bye" (pyLower c) ||
        pyIn "farewell" (pyLower c))) := by
    simp only [farewellWords, List.any_cons, List.any_nil, Bool.or_false]
  rw [h3]

lemma should_continue_nocontent (st : AgentState) (m : Message)
    (h : st.messages.getLast? = some m) (hc : m.content = none) :
    should_continue st = some "continue" := by
  have h1 : should_continue st =
      (match m.content with
       | some c =>
         if farewellWords.any (fun word => pyIn word (pyLower c)) then
           some "end"
         else some "continue"
       | none => some "continue") := by
    unfold should_continue
    rw [h]
  rw [hc] at h1
  exact h1

lemma pyIn_bye_of_goodbye (h : String) :
    pyIn "goodbye" h = true → pyIn "bye" h = true := by
  intro hg
  unfold pyIn at hg ⊢
  rw [List.any_eq_true] at hg ⊢
  obtain ⟨i, hi, hp⟩ := hg
  rw [beq_iff_eq] at hp
  have hlen7 : (("goodbye" : String).data).length = 7 := rfl
  have htklen := congrArg List.length hp
  rw [List.length_take, List.length_drop, hlen7] at htklen
  refine ⟨i + 4, ?_, ?_⟩
  · rw [List.mem_range] at hi ⊢
    omega
  · rw [beq_iff_eq]
    have hdd : (h.data.drop i).drop 4 = h.data.drop (i + 4) :=
      List.drop_drop 4 i h.data
    have hdt := congrArg (List.drop 4) hp
    rw [List.drop_take, hdd] at hdt
    exact hdt

/-- Claim C8: for every agent state whose messages list is non-empty
and whose last message carries a content attribute with text `c`,
`should_continue` returns "end" exactly when the lowercased content
contains "goodbye", "bye" or "farewell" as a substring — equivalently,
contains "bye" or "farewell", since "bye" is a substring of "goodbye";
when the last message has no content attribute it returns "continue";
and the function never returns any string other than "continue" or
"end".  (A content whose lowercase form embeds "bye", such as
"lullabye", also ends the loop; "maybe" does not, since "bye" is not
among its substrings.) -/
theorem should_continue_farewell_detection (st : AgentState) (m : Message)
    (h : st.messages.getLast? = some m) :
    (∀ c, m.content = some c →
      ((should_continue st = some "end" ↔
          (pyIn "goodbye" (pyLower c) || (pyIn "bye" (pyLower c) ||
            pyIn "farewell" (pyLower c))) = true)
        ∧ (should_continue st = some "end" ↔
          (pyIn "bye" (pyLower c) || pyIn "farewell" (pyLower c)) = true)))
    ∧ (m.content = none → should_continue st = some "continue")
    ∧ (should_continue st = some "continue" ∨ should_continue st = some "end") := by
  refine ⟨?_, ?_, ?_⟩
  · intro c hc
    have hrw := should_continue_content st m c h hc
    have hiff1 : should_continue st = some "end" ↔
        (pyIn "goodbye" (pyLower c) || (pyIn "bye" (pyLower c) ||
          pyIn "farewell" (pyLower c))) = true := by
      rw [hrw]
      cases hcond : (pyIn "goodbye" (pyLower c) || (pyIn "bye" (pyLower c) ||
          pyIn "farewell" (pyLower c)))
      · decide
      · decide
    refine ⟨hiff1, hiff1.trans ?_⟩
    constructor
    · intro hcond
      rcases Bool.or_eq_true_iff.mp hcond with hg | hbf
      · simp [pyIn_bye_of_goodbye (pyLower c) hg]
      · exact hbf
    · intro hbf
      rw [Bool.or_eq_true_iff]
      right
      exact hbf
  · intro hc
    exact should_continue_nocontent st m h hc
  · cases hc : m.content with
    | none =>
      left
      exact should_continue_nocontent st m h hc
    | some c =>
      rw [should_continue_content st m c h hc]
      cases hcond : (pyIn "goodbye" (pyLower c) || (pyIn "bye" (pyLower c) ||
          pyIn "farewell" (pyLower c)))
      · decide
      · decide

/-- Witness for C8: the theorem applied to the concrete state whose
last message reads "Time to say GOODBYE now"; its lowercased content
contains "bye", so the conversation ends. -/
theorem should_continue_farewell_detection_witness :
    should_continue (AgentState.mk [Message.mk (some "Time to say GOODBYE now")]) = some "end" := by
  have h := should_continue_farewell_detection
    (AgentState.mk [Message.mk (some "Time to say GOODBYE now")])
    (Message.mk (some "Time to say GOODBYE now")) rfl
  have h2 := (h.1 "Time to say GOODBYE now" rfl).2
  rw [h2]
  decide

/-- Counterexample for C8 as stated: the claim's parenthetical asserts
that a content such as "maybe" also ends the loop, but "bye" is not a
substring of "maybe" (its length-3 substrings are "may", "ayb" and
"ybe"), and `should_continue` returns "continue" on it, not "end". -/
theorem should_continue_maybe_counterexample :
    should_continue (AgentState.mk [Message.mk (some "maybe")]) = some "continue"
      ∧ ¬ (should_continue (AgentState.mk [Message.mk (some "maybe")]) = some "end") := by
  decide

/-- Claim C9: `should_continue` indexes the last element of the
messages list, so in the Option-returning embedding it is defined
(returns a result) on every non-empty messages list — the out-of-range
branch of the index is unreachable there — while on the empty list the
index fails and the function has no result. -/
theorem should_continue_total_on_nonempty (st : AgentState) :
    (st.messages ≠ [] → (should_continue st).isSome = true)
      ∧ (st.messages = [] → should_continue st = none) := by
  constructor
  · intro hne
    cases hlast : st.messages.getLast? with
    | none => exact absurd (List.getLast?_eq_none_iff.mp hlast) hne
    | some m =>
      cases hc : m.content with
      | none => rw [should_continue_nocontent st m hlast hc]; rfl
      | some c =>
        rw [should_continue_content st m c hlast hc]
        cases hcond : (pyIn "goodbye" (pyLower c) || (pyIn "bye" (pyLower c) ||
            pyIn "farewell" (pyLower c)))
        · decide
        · decide
  · intro he
    unfold should_continue
    rw [List.getLast?_eq_none_iff.mpr he]

/-- Witness for C9: the theorem applied to a one-message state (whose
messages list is non-empty, so a result exists) and to the empty
state (no result). -/
theorem should_continue_total_on_nonempty_witness :
    (should_continue (AgentState.mk [Message.mk none])).isSome = true
      ∧ should_continue (AgentState.mk []) = none := by
  constructor
  · exact (should_continue_total_on_nonempty (AgentState.mk [Message.mk none])).1
      (by simp)
  · exact (should_continue_total_on_nonempty (AgentState.mk [])).2 rfl

/-- Claim C10: `read_documentation` exits the process with code 1
whenever the documentation file does not exist at the computed path,
and otherwise returns the entire contents of that file; it never
returns an `ok` value in the missing-file case. -/
theorem read_documentation_spec (fs : FS) (pluginRoot : List String) :
    (fs.read (doc_path pluginRoot) = none →
      read_documentation fs pluginRoot = PyResult.exit 1)
    ∧ (∀ c, fs.read (doc_path pluginRoot) = some c →
      read_documentation fs pluginRoot = PyResult.ok c) := by
  constructor
  · intro h
    unfold read_documentation
    rw [h]
  · intro c h
    unfold read_documentation
    rw [h]

/-- Witness for C10: the theorem applied to an empty filesystem (the
documentation file is missing, so the script exits with code 1) and to
a filesystem holding the documentation file (whose contents are
returned). -/
theorem read_documentation_spec_witness :
    read_documentation (FS.mk []) ["plugin"] = PyResult.exit 1
      ∧ read_documentation
          (FS.mk [(["plugin", "docs", "CONFLUENCE-DOCUMENTATION.md"], "docs text")])
          ["plugin"] = PyResult.ok "docs text" := by
  constructor
  · exact (read_documentation_spec (FS.mk []) ["plugin"]).1 rfl
  · exact (read_documentation_spec
      (FS.mk [(["plugin", "docs", "CONFLUENCE-DOCUMENTATION.md"], "docs text")])
      ["plugin"]).2 "docs text" rfl

/-- Claim C1: `validate(id)` succeeds and marks the agent healthy
exactly when the loaded module exposes at least one of the two
recognized entry points (a pre-built executable graph object, or a
factory function that builds one), and fails marking it unhealthy when
both are missing; the demo conversational-graph module of
src/langgraph-demo/agent.py exposes, at module scope, a pre-built
compiled graph object named `graph`, so validating a module loaded
from it succeeds. -/
theorem validate_entry_points (w : World) (s : RegState) (id : String)
    (meta : AgentMetadata) (p : List String) (m : PyModule)
    (hc : alookup s.cache id = none)
    (hm : alookup s.agents id = some meta)
    (hp : meta.modulePath = some p)
    (hf : w.fileExists p = true)
    (hl : w.loadModule p = some m) :
    ((validate w s id).1 = true ↔ (m.hasGraph || m.hasFactory) = true)
    ∧ alookup (validate w s id).2.agents id =
        some { meta with
          healthStatus :=
            if m.hasGraph || m.hasFactory then HealthStatus.healthy
            else HealthStatus.unhealthy,
          updatedAt := some w.now }
    ∧ (validate demoWorld demoState "langgraph-demo").1 = true := by
  have hload := load_fresh_ok w s id meta p m hc hm hp hf hl
  have hmid : alookup (setHealth s.agents id HealthStatus.healthy w.now) id =
      some { meta with healthStatus := HealthStatus.healthy,
                       updatedAt := some w.now } :=
    alookup_setHealth_self s.agents id HealthStatus.healthy w.now meta hm
  cases hgf : (m.hasGraph || m.hasFactory) with
  | true =>
    have hval : validate w s id =
        (true,
         { agents := setHealth (setHealth s.agents id HealthStatus.healthy w.now)
             id HealthStatus.healthy w.now,
           disk := some (saveAll (setHealth (setHealth s.agents id
             HealthStatus.healthy w.now) id HealthStatus.healthy w.now)),
           cache := cacheReplace s.cache id m }) := by
      simp [validate, hload, hgf]
    refine ⟨?_, ?_, ?_⟩
    · rw [hval]
    · rw [hval]
      simp only [hgf, if_true]
      exact alookup_setHealth_self
        (setHealth s.agents id HealthStatus.healthy w.now) id
        HealthStatus.healthy w.now
        { meta with healthStatus := HealthStatus.healthy,
                    updatedAt := some w.now } hmid
    · rfl
  | false =>
    have hval : validate w s id =
        (false,
         { agents := setHealth (setHealth s.agents id HealthStatus.healthy w.now)
             id HealthStatus.unhealthy w.now,
           disk := some (saveAll (setHealth (setHealth s.agents id
             HealthStatus.healthy w.now) id HealthStatus.unhealthy w.now)),
           cache := cacheReplace s.cache id m }) := by
      simp [validate, hload, hgf]
    refine ⟨?_, ?_, ?_⟩
    · rw [hval]
    · rw [hval]
      simp only [hgf, if_false]
      exact alookup_setHealth_self
        (setHealth s.agents id HealthStatus.healthy w.now) id
        HealthStatus.unhealthy w.now
        { meta with healthStatus := HealthStatus.healthy,
                    updatedAt := some w.now } hmid
    · rfl

/-- Witness for C1: the theorem applied to the demo world, whose
module is the one of src/langgraph-demo/agent.py; validation
succeeds. -/
theorem validate_entry_points_witness :
    (validate demoWorld demoState "langgraph-demo").1 = true :=
  (validate_entry_points demoWorld demoState "langgraph-demo" demoAgent
    demoModulePath langgraphDemoModule rfl rfl rfl rfl rfl).1.mpr rfl

/-- Claim C2: a `register` call with an id already present in the
registry fails with `AlreadyExists` and has no effect on state: the
returned state is the input state, so the existing record (its
`updatedAt` included) is byte-identical and neither the in-memory set
nor the persisted store is mutated. -/
theorem register_duplicate_id_no_effect (w : World) (s : RegState)
    (id nm ds : String) (mp : List String) (extra : ExtraFields)
    (a : AgentMetadata) (h : alookup s.agents id = some a) :
    register w s id nm ds mp extra = (Except.error RegError.alreadyExists, s)
      ∧ alookup (register w s id nm ds mp extra).2.agents id = some a := by
  have h1 : register w s id nm ds mp extra =
      (Except.error RegError.alreadyExists, s) := by
    simp [register, h]
  refine ⟨h1, ?_⟩
  rw [h1]
  exact h

/-- Witness for C2: registering the already-present demo id fails with
`AlreadyExists`, and the existing record is still found unchanged. -/
theorem register_duplicate_id_no_effect_witness :
    register demoWorld demoState "langgraph-demo" "Other" "other"
        demoModulePath {} = (Except.error RegError.alreadyExists, demoState)
      ∧ alookup (register demoWorld demoState "langgraph-demo" "Other" "other"
          demoModulePath {}).2.agents "langgraph-demo" = some demoAgent :=
  register_duplicate_id_no_effect demoWorld demoState "langgraph-demo"
    "Other" "other" demoModulePath {} demoAgent rfl

/-- Claim C3: round-trip persistence — for every metadata set `m`,
`saveAll m` followed by a fresh `open`/`loadAll` yields a set
identical to `m` in every field, including empty sequences and null
timestamps. -/
theorem saveAll_roundtrip (m : List (String × AgentMetadata)) :
    loadAll (some (saveAll m)) = (m, false)
      ∧ openStore (some (saveAll m)) = (m, false, saveAll m) := by
  constructor
  · simp [loadAll, saveAll, parseStore, decodeMap_encodeMap]
  · simp [openStore, saveAll, parseStore, decodeMap_encodeMap]

/-- Claim C4: discovery is idempotent — after one `discover` run, a
second run over the unchanged tree returns a discovered-count of 0 and
exactly the same registry state: it registers nothing new, overwrites
nothing, and leaves every existing record (its `updatedAt` included)
untouched. -/
theorem discover_idempotent (w : World) (root : List String) (s : RegState) :
    discover w root ((discover w root s).2) = (0, (discover w root s).2) := by
  unfold discover
  have hfiles : ∀ p ∈ discoverCandidates w root, w.fileExists p = true := by
    intro p hp
    unfold discoverCandidates at hp
    have hmem := (List.mem_filter.mp hp).1
    unfold World.fileExists
    exact List.elem_iff.mpr hmem
  rcases hrun1 : (discoverCandidates w root).foldl (discoverStep w) (0, s)
    with ⟨n1, s1⟩
  have hdone : ∀ p ∈ discoverCandidates w root, candidateDone w s1 p := by
    intro p hp
    have := foldl_discoverStep_establishes w (discoverCandidates w root) 0 s
      hfiles p hp
    rw [hrun1] at this
    exact this
  exact foldl_discoverStep_id_of_all_done w (discoverCandidates w root) 0 s1 hdone

/-- Claim C5: `load(id, forceReload := false)` with a cached handle
returns that handle unchanged with no I/O and no metadata mutation
(the state is returned as-is); without a usable cache entry it fails
with `NotFound` when the id is unknown or has no module reference,
fails with `LoadError` when the referenced file does not exist (health
becomes unhealthy), and otherwise loads the unit fresh, replaces any
prior cached handle and transitions `healthStatus` to healthy; an
exception during the load is caught — reported as a `LoadFailure`
result value, not raised — and transitions `healthStatus` to
unhealthy. -/
theorem load_semantics (w : World) (s : RegState) (id : String) :
    (∀ h, alookup s.cache id = some h → load w s id false = (Except.ok h, s))
    ∧ (alookup s.cache id = none → alookup s.agents id = none →
        load w s id false = (Except.error RegError.notFound, s))
    ∧ (∀ meta, alookup s.cache id = none → alookup s.agents id = some meta →
        meta.modulePath = none →
        load w s id false = (Except.error RegError.notFound, s))
    ∧ (∀ meta p, alookup s.cache id = none → alookup s.agents id = some meta →
        meta.modulePath = some p → w.fileExists p = false →
        ((load w s id false).1 = Except.error RegError.loadError
          ∧ alookup (load w s id false).2.agents id =
              some { meta with healthStatus := HealthStatus.unhealthy,
                               updatedAt := some w.now }))
    ∧ (∀ meta p m, alookup s.cache id = none → alookup s.agents id = some meta →
        meta.modulePath = some p → w.fileExists p = true →
        w.loadModule p = some m →
        ((load w s id false).1 = Except.ok m
          ∧ alookup (load w s id false).2.agents id =
              some { meta with healthStatus := HealthStatus.healthy,
                               updatedAt := some w.now }
          ∧ alookup (load w s id false).2.cache id = some m))
    ∧ (∀ meta p, alookup s.cache id = none → alookup s.agents id = some meta →
        meta.modulePath = some p → w.fileExists p = true →
        w.loadModule p = none →
        ((load w s id false).1 = Except.error RegError.loadFailure
          ∧ alookup (load w s id false).2.agents id =
              some { meta with healthStatus := HealthStatus.unhealthy,
                               updatedAt := some w.now })) := by
  refine ⟨?_, ?_, ?_, ?_, ?_, ?_⟩
  · intro h hc
    exact load_cached w s id h hc
  · intro hc hm
    exact load_unknown_id w s id hc hm
  · intro meta hc hm hp
    exact load_no_module_ref w s id meta hc hm hp
  · intro meta p hc hm hp hf
    rw [load_file_missing w s id meta p hc hm hp hf]
    exact ⟨rfl, alookup_setHealth_self s.agents id HealthStatus.unhealthy w.now meta hm⟩
  · intro meta p m hc hm hp hf hl
    rw [load_fresh_ok w s id meta p m hc hm hp hf hl]
    exact ⟨rfl,
      alookup_setHealth_self s.agents id HealthStatus.healthy w.now meta hm,
      alookup_cacheReplace_self s.cache id m⟩
  · intro meta p hc hm hp hf hl
    rw [load_exception w s id meta p hc hm hp hf hl]
    exact ⟨rfl, alookup_setHealth_self s.agents id HealthStatus.unhealthy w.now meta hm⟩

/-- Witness for C5: the cache-hit conjunct of the theorem applied to a
state whose cache holds a handle; the handle is returned and the state
is unchanged. -/
theorem load_semantics_witness :
    load demoWorld cachedState "cached-agent" false =
      (Except.ok langgraphDemoModule, cachedState) :=
  (load_semantics demoWorld cachedState "cached-agent").1 langgraphDemoModule rfl

/-- Claim C6: `loadAll` never propagates a parse error — for every
store-file content that fails to parse, it logs the failure and leaves
the registry open with an empty in-memory map, as does `open`. -/
theorem loadAll_parse_failure (c : StoreContent) (h : parseStore c = none) :
    loadAll (some c) = ([], true)
      ∧ openStore (some c) = ([], true, c) := by
  constructor
  · simp [loadAll, h]
  · simp [openStore, h]

theorem loadAll_parse_failure_witness :
    loadAll (some (StoreContent.malformed "not json")) = ([], true)
      ∧ openStore (some (StoreContent.malformed "not json")) =
          ([], true, StoreContent.malformed "not json") :=
  loadAll_parse_failure (StoreContent.malformed "not json") rfl

/-- Claim C7: `list` filters conjunctively — an entry is in the result
exactly when it is enabled (if `enabledOnly` is set), its type equals
the requested type (if one is given), and its tags include every
requested tag, not merely some; in particular, with requested tags
"nlp" and "beta" an agent tagged only "nlp" is excluded. -/
theorem listAgents_conjunctive (s : RegState) (enabledOnly : Bool)
    (agentType : Option String) (tags : Option (List String))
    (a : AgentMetadata) :
    (a ∈ listAgents s enabledOnly agentType tags ↔
      (a ∈ s.agents.map (fun e => e.2)
        ∧ (enabledOnly = true → a.enabled = true)
        ∧ (∀ t, agentType = some t → a.agentType = t)
        ∧ (∀ ts, tags = some ts → ∀ tag ∈ ts, tag ∈ a.tags)))
    ∧ listAgents
        { agents := [("a1", nlpOnlyAgent)], disk := none, cache := [] }
        true (some "worker") (some ["nlp", "beta"]) = [] := by
  constructor
  · unfold listAgents
    rw [List.mem_filter]
    exact and_congr Iff.rfl (listFilter_eq_true enabledOnly agentType tags a)
  · rfl
